import Mathlib

/-!
Verification of the interactive refactoring session server
(source: src/interact/main_thread.rs).

The session loop, mark registry and live file loader are embedded as pure
Lean functions.  External collaborators (the compiler driver, the node
picker, the command registry, the real filesystem, and the worker thread
that answers file-content requests) are modelled as oracle function fields
of an `Env` record.  Channel sends become explicit output lists, and a
Rust panic becomes an `Option PanicPayload` component of the handler
result: `PanicPayload.string` models a `String` payload (a formatted
`panic!`), `PanicPayload.str` models a `str` payload (literal
panics such as `unwrap` and `unreachable!`), and `PanicPayload.other`
models any other payload type.
-/

namespace Interact

/-- Payload of a caught Rust panic, distinguished by how
`downcast_ref::<String>()` treats it: only the `string` variant
downcasts successfully. -/
inductive PanicPayload where
  | str : String → PanicPayload
  | string : String → PanicPayload
  | other : PanicPayload
deriving DecidableEq

/-- Client-facing view of one marked node (struct `MarkInfo`). -/
structure MarkInfo where
  id : Nat
  file : String
  start_line : Nat
  start_col : Nat
  end_line : Nat
  end_col : Nat
  labels : List String
deriving DecidableEq

/-- Resolved source span of a node: the result of
`lookup_char_pos(span.lo)` / `lookup_char_pos(span.hi)`. -/
structure SpanInfo where
  file : String
  start_line : Nat
  start_col : Nat
  end_line : Nat
  end_col : Nat
deriving DecidableEq

/-- Requests from client to server (enum `ToServer`). -/
inductive ToServer where
  | AddMark : String → Nat → Nat → String → String → ToServer
  | RemoveMark : Nat → ToServer
  | GetMarkInfo : Nat → ToServer
  | GetMarkList : ToServer
  | SetBuffersAvailable : List String → ToServer
  | RunCommand : String → List String → ToServer
  | BufferText : String → String → ToServer
deriving DecidableEq

/-- Replies from server to client (enum `ToClient`). -/
inductive ToClient where
  | Mark : MarkInfo → ToClient
  | MarkList : List MarkInfo → ToClient
  | NewBufferText : String → String → ToClient
  | Error : String → ToClient
deriving DecidableEq

/-- Outcome of running one transformation command: the flags raised on the
`CommandState`, the resulting mark set, and the per-file rewrites the
rewrite engine would produce for the changed AST (file name, new text). -/
structure CmdResult where
  krate_changed : Bool
  marks_changed : Bool
  marks : List (Nat × String)
  rewrites : List (String × String)
deriving DecidableEq

/-- A registry-resolved command: its minimum compiler phase and its run
function, which observes the mark-set snapshot it is seeded with and may
panic (`Except.error`). -/
structure Command where
  min_phase : Nat
  run : List (Nat × String) → Except PanicPayload CmdResult

/-- Oracle environment: the external collaborators of the session loop. -/
structure Env where
  /-- `pick_node::NodeKind::from_str`: `some` on the fixed vocabulary. -/
  node_kind_from_str : String → Option String
  /-- Debug formatting of a parsed node kind (the `{:?}` in the panic). -/
  kind_debug : String → String
  /-- `pick_node_at_loc`: kind, file, line, col to node id and its span. -/
  pick_node_at_loc : String → String → Nat → Nat → Option (Nat × SpanInfo)
  /-- `cx.hir_map().span(id)` followed by `lookup_char_pos`. -/
  hir_span : Nat → SpanInfo
  /-- `registry.get_command(name, args)`; panics on malformed input. -/
  get_command : String → List String → Except PanicPayload Command
  /-- `fs::canonicalize`. -/
  canonicalize : String → Except String String
  /-- `RealFileLoader::read_file` on a given path. -/
  disk_read : String → Except String String
  /-- `RealFileLoader::file_exists`. -/
  real_file_exists : String → Bool
  /-- `RealFileLoader::abs_path`. -/
  real_abs_path : String → Option String
  /-- Content the worker delivers on a `NeedFile` request for a path. -/
  worker_file_response : String → String

/-- Session state owned by the loop thread (struct `InteractState`);
the two channel senders become output traces instead. -/
structure InteractState where
  rustc_args : List String
  buffers_available : List String
  current_marks : List (Nat × String)
deriving DecidableEq

/-- `InteractState::new`: empty buffer set and empty mark set. -/
def InteractState.new (rustc_args : List String) : InteractState :=
  { rustc_args := rustc_args, buffers_available := [], current_marks := [] }

/-- HashSet insertion for the mark set: duplicates collapse. -/
def insertMark (p : Nat × String) (m : List (Nat × String)) : List (Nat × String) :=
  if p ∈ m then m else p :: m

/-- Push one label onto the group entry of its id, creating the entry when
absent (the `HashMap` `entry(id).or_insert_with` plus `labels.push`). -/
def addToGroup (id : Nat) (l : String) : List (Nat × List String) → List (Nat × List String)
  | [] => [(id, [l])]
  | g :: rest => if g.1 = id then (g.1, l :: g.2) :: rest else g :: addToGroup id l rest

/-- Group the mark set by node id, accumulating the labels of each id
(the `HashMap` built by the loop of `collect_mark_infos`). -/
def groupMarks : List (Nat × String) → List (Nat × List String)
  | [] => []
  | p :: rest => addToGroup p.1 p.2 (groupMarks rest)

/-- Build the `MarkInfo` of one id from its span (the `or_insert_with`
closure), with a given label list. -/
def mkInfo (env : Env) (id : Nat) (labels : List String) : MarkInfo :=
  let sp := env.hir_span id
  { id := id, file := sp.file, start_line := sp.start_line, start_col := sp.start_col,
    end_line := sp.end_line, end_col := sp.end_col, labels := labels }

/-- Ordering of `MarkInfo` by id (the `sort_by_key(|i| i.id)`). -/
def infoLe (a b : MarkInfo) : Prop := a.id ≤ b.id

instance : DecidableRel infoLe := fun a b => inferInstanceAs (Decidable (a.id ≤ b.id))

instance : IsTotal MarkInfo infoLe := ⟨fun a b => Nat.le_total a.id b.id⟩

instance : IsTrans MarkInfo infoLe := ⟨fun _ _ _ hab hbc => Nat.le_trans hab hbc⟩

/-- `InteractState::collect_mark_infos`: one `MarkInfo` per marked id,
labels sorted, the vector sorted by id. -/
def collect_mark_infos (env : Env) (marks : List (Nat × String)) : List MarkInfo :=
  let infos := (groupMarks marks).map
    (fun g => mkInfo env g.1 (List.insertionSort (· ≤ ·) g.2))
  List.insertionSort infoLe infos

/-- Result of handling one request: the post state, the replies sent to
the client, and the panic escaping the handler, when any. -/
structure HandleResult where
  state : InteractState
  sent : List ToClient
  panicked : Option PanicPayload
deriving DecidableEq

/-- Panic message of `Option::unwrap` on `None` (a `&str` payload). -/
def unwrapNoneMsg : String := "called `Option::unwrap()` on a `None` value"

/-- Panic message of `unreachable!()` (a `&str` payload). -/
def unreachableMsg : String := "internal error: entered unreachable code"

/-- The formatted message of the
`panic!("no {:?} node at {}:{}:{}", kind, file, line, col)`. -/
def no_node_msg (kindD file : String) (line col : Nat) : String :=
  "no " ++ kindD ++ " node at " ++ file ++ ":" ++ toString line ++ ":" ++ toString col

/-- `InteractState::handle_one`, one arm per `ToServer` variant. -/
def handle_one (env : Env) (st : InteractState) (msg : ToServer) : HandleResult :=
  match msg with
  | ToServer.AddMark file line col kind label =>
    match env.node_kind_from_str kind with
    | none => ⟨st, [], some (PanicPayload.str unwrapNoneMsg)⟩
    | some k =>
      match env.pick_node_at_loc k file line col with
      | none =>
        ⟨st, [], some (PanicPayload.string (no_node_msg (env.kind_debug k) file line col))⟩
      | some pr =>
        let info : MarkInfo :=
          { id := pr.1, file := pr.2.file, start_line := pr.2.start_line,
            start_col := pr.2.start_col, end_line := pr.2.end_line,
            end_col := pr.2.end_col, labels := [label] }
        ⟨{ st with current_marks := insertMark (pr.1, label) st.current_marks },
         [ToClient.Mark info], none⟩
  | ToServer.RemoveMark id =>
    ⟨{ st with current_marks := st.current_marks.filter (fun p => p.1 != id) }, [], none⟩
  | ToServer.GetMarkInfo id =>
    let labels := List.insertionSort (· ≤ ·)
      ((st.current_marks.filter (fun p => p.1 == id)).map (fun p => p.2))
    ⟨st, [ToClient.Mark (mkInfo env id labels)], none⟩
  | ToServer.GetMarkList =>
    ⟨st, [ToClient.MarkList (collect_mark_infos env st.current_marks)], none⟩
  | ToServer.SetBuffersAvailable files =>
    ⟨{ st with buffers_available :=
        (files.filterMap (fun f => (env.canonicalize f).toOption)).dedup }, [], none⟩
  | ToServer.RunCommand name args =>
    match env.get_command name args with
    | Except.error p => ⟨st, [], some p⟩
    | Except.ok cmd =>
      match cmd.run st.current_marks with
      | Except.error p => ⟨st, [], some p⟩
      | Except.ok res =>
        let bufMsgs := if res.krate_changed then
            (res.rewrites.filter (fun fm => !(fm.1.startsWith "<"))).map
              (fun fm => ToClient.NewBufferText fm.1 fm.2)
          else []
        let newMarks := if res.marks_changed then res.marks else st.current_marks
        let markMsgs := if res.marks_changed then
            [ToClient.MarkList (collect_mark_infos env res.marks)]
          else []
        ⟨{ st with current_marks := newMarks }, bufMsgs ++ markMsgs, none⟩
  | ToServer.BufferText _ _ =>
    ⟨st, [], some (PanicPayload.str unreachableMsg)⟩

/-- The text of the `Error` reply built from a caught panic payload:
the message when the payload downcasts to `String`, else generic. -/
def panic_text : PanicPayload → String
  | PanicPayload.string s => s
  | _ => "An error occurred of unknown type"

/-- `InteractState::run_loop`: handle each request inside
`panic::catch_unwind`, turning an escaped panic into one `Error` reply,
then keep serving. -/
def run_loop (env : Env) : InteractState → List ToServer → InteractState × List ToClient
  | st, [] => (st, [])
  | st, msg :: rest =>
    let r := handle_one env st msg
    let errs := match r.panicked with
      | some p => [ToClient.Error (panic_text p)]
      | none => []
    let next := run_loop env r.state rest
    (next.1, r.sent ++ errs ++ next.2)

/-- Effects of one `read_file` call: a `NeedFile` request sent to the
worker, or a read of the real filesystem. -/
inductive FsEffect where
  | needFile : String → FsEffect
  | diskRead : String → FsEffect
deriving DecidableEq

/-- Struct `InteractiveFileLoader`; the worker sender and the
`RealFileLoader` live in `Env`. -/
structure InteractiveFileLoader where
  buffers_available : List String
deriving DecidableEq

/-- `InteractState::make_file_loader`. -/
def make_file_loader (st : InteractState) : InteractiveFileLoader :=
  { buffers_available := st.buffers_available }

/-- `FileLoader::file_exists` impl: always delegates to the real one. -/
def InteractiveFileLoader.file_exists (self : InteractiveFileLoader) (env : Env)
    (path : String) : Bool :=
  let _ := self
  env.real_file_exists path

/-- `FileLoader::abs_path` impl: always delegates to the real one. -/
def InteractiveFileLoader.abs_path (self : InteractiveFileLoader) (env : Env)
    (path : String) : Option String :=
  let _ := self
  env.real_abs_path path

/-- `FileLoader::read_file` impl: canonicalize, then either round-trip
through the worker (when the canonical path is an available buffer) or
read the real filesystem, together with the trace of effects. -/
def InteractiveFileLoader.read_file (self : InteractiveFileLoader) (env : Env)
    (path : String) : Except String String × List FsEffect :=
  match env.canonicalize path with
  | Except.error e => (Except.error e, [])
  | Except.ok canon =>
    if canon ∈ self.buffers_available then
      (Except.ok (env.worker_file_response canon), [FsEffect.needFile canon])
    else
      (env.disk_read canon, [FsEffect.diskRead canon])

/-- One `AddMark` request, as plain data. -/
structure AddReq where
  file : String
  line : Nat
  col : Nat
  kind : String
  label : String
deriving DecidableEq

/-- The `ToServer` message of an `AddReq`. -/
def AddReq.toMsg (r : AddReq) : ToServer :=
  ToServer.AddMark r.file r.line r.col r.kind r.label

/-- The mark an `AddMark` request resolves to under `env`: the picked
node id paired with the requested label, `none` when the kind fails to
parse or no node is found. -/
def resolve_add (env : Env) (r : AddReq) : Option (Nat × String) :=
  match env.node_kind_from_str r.kind with
  | none => none
  | some k => (env.pick_node_at_loc k r.file r.line r.col).map (fun pr => (pr.1, r.label))

/-- First label list recorded for an id in a grouped mark list. -/
def groupLabels : List (Nat × List String) → Nat → List String
  | [], _ => []
  | g :: rest, id => if g.1 = id then g.2 else groupLabels rest id

/-! Concrete instances used to exercise the theorems. -/

/-- Concrete span of the sample node. -/
def span0 : SpanInfo :=
  { file := "a.rs", start_line := 3, start_col := 5, end_line := 3, end_col := 9 }

/-- Concrete command outcome: AST and marks both changed, one real and
one synthetic rewrite. -/
def res0 : CmdResult :=
  { krate_changed := true, marks_changed := true,
    marks := [(7, "new_name")],
    rewrites := [("a.rs", "new text"), ("<anon>", "other")] }

/-- Concrete command that always succeeds with `res0`. -/
def cmd0 : Command :=
  { min_phase := 2, run := fun _ => Except.ok res0 }

/-- Concrete oracle environment: one known node kind, one pickable node,
one known command, and a filesystem where only the path "bad" fails to
canonicalize. -/
def env0 : Env :=
  { node_kind_from_str := fun s => if s = "Item" then some "Item" else none,
    kind_debug := fun s => s,
    pick_node_at_loc := fun k f l c =>
      if k = "Item" ∧ f = "a.rs" ∧ l = 3 ∧ c = 5 then some (7, span0) else none,
    hir_span := fun i =>
      { file := "a.rs", start_line := i, start_col := 0, end_line := i, end_col := 1 },
    get_command := fun n _ =>
      if n = "rename_item" then Except.ok cmd0
      else Except.error (PanicPayload.string "unknown command"),
    canonicalize := fun p =>
      if p = "bad" then Except.error "no such file" else Except.ok p,
    disk_read := fun p => Except.ok (String.append "disk " p),
    real_file_exists := fun _ => true,
    real_abs_path := fun p => some p,
    worker_file_response := fun p => String.append "live " p }

/-- Loader whose buffer set holds the file "buf.rs". -/
def loader0 : InteractiveFileLoader := { buffers_available := ["buf.rs"] }

/-- Loader with an empty buffer set. -/
def loaderE : InteractiveFileLoader := { buffers_available := [] }

/-- One resolving `AddMark` request against `env0`. -/
def reqs0 : List AddReq :=
  [{ file := "a.rs", line := 3, col := 5, kind := "Item", label := "x" }]

/-! Helper lemmas about the mark set and the grouping pass. -/

theorem mem_insertMark (p q : Nat × String) (m : List (Nat × String)) :
    q ∈ insertMark p m ↔ q = p ∨ q ∈ m := by
  unfold insertMark
  split
  · constructor
    · exact fun h => Or.inr h
    · rintro (rfl | h)
      · assumption
      · assumption
  · simp

theorem nodup_insertMark (p : Nat × String) (m : List (Nat × String)) (h : m.Nodup) :
    (insertMark p m).Nodup := by
  unfold insertMark
  split
  · exact h
  · exact List.Nodup.cons (by assumption) h

theorem mem_foldl_insertMark (pairs : List (Nat × String)) (init : List (Nat × String))
    (q : Nat × String) :
    q ∈ pairs.foldl (fun m p => insertMark p m) init ↔ q ∈ pairs ∨ q ∈ init := by
  induction pairs generalizing init with
  | nil => simp
  | cons hd tl ih =>
    simp only [List.foldl_cons, List.mem_cons, ih, mem_insertMark]
    tauto

theorem nodup_foldl_insertMark (pairs : List (Nat × String)) (init : List (Nat × String))
    (h : init.Nodup) :
    (pairs.foldl (fun m p => insertMark p m) init).Nodup := by
  induction pairs generalizing init with
  | nil => exact h
  | cons hd tl ih => exact ih _ (nodup_insertMark hd init h)

theorem except_toOption_eq_some (x : Except String String) (c : String) :
    x.toOption = some c ↔ x = Except.ok c := by
  cases x <;> simp [Except.toOption]

theorem handle_one_sent_of_panic (env : Env) (st : InteractState) (msg : ToServer)
    (p : PanicPayload) (h : (handle_one env st msg).panicked = some p) :
    (handle_one env st msg).sent = [] := by
  cases msg with
  | AddMark file line col kind label =>
    unfold handle_one at h ⊢
    cases hk : env.node_kind_from_str kind with
    | none => simp [hk]
    | some k =>
      cases hp : env.pick_node_at_loc k file line col with
      | none => simp [hk, hp]
      | some pr => simp [hk, hp] at h
  | RemoveMark id => simp [handle_one] at h
  | GetMarkInfo id => simp [handle_one] at h
  | GetMarkList => simp [handle_one] at h
  | SetBuffersAvailable files => simp [handle_one] at h
  | RunCommand name args =>
    unfold handle_one at h ⊢
    cases hg : env.get_command name args with
    | error q => simp [hg]
    | ok cmd =>
      cases hr : cmd.run st.current_marks with
      | error q => simp [hg, hr]
      | ok res => simp [hg, hr] at h
  | BufferText f c => simp [handle_one]

theorem mem_fst_addToGroup (id : Nat) (l : String) (g : List (Nat × List String)) (i : Nat) :
    i ∈ (addToGroup id l g).map (fun x => x.1) ↔ i = id ∨ i ∈ g.map (fun x => x.1) := by
  induction g with
  | nil => simp [addToGroup]
  | cons hd tl ih =>
    by_cases h : hd.1 = id
    · subst h
      simp [addToGroup]
    · simp only [addToGroup, h, if_false, List.map_cons, List.mem_cons, ih]
      tauto

theorem nodup_fst_addToGroup (id : Nat) (l : String) (g : List (Nat × List String))
    (h : (g.map (fun x => x.1)).Nodup) :
    ((addToGroup id l g).map (fun x => x.1)).Nodup := by
  induction g with
  | nil => simp [addToGroup]
  | cons hd tl ih =>
    simp only [List.map_cons, List.nodup_cons] at h
    by_cases hh : hd.1 = id
    · subst hh
      simpa [addToGroup] using h
    · simp only [addToGroup, hh, if_false, List.map_cons, List.nodup_cons]
      refine ⟨?_, ih h.2⟩
      rw [mem_fst_addToGroup]
      push_neg
      exact ⟨hh, h.1⟩

theorem groupLabels_addToGroup (id : Nat) (l : String) (g : List (Nat × List String)) (i : Nat) :
    groupLabels (addToGroup id l g) i
      = if i = id then l :: groupLabels g i else groupLabels g i := by
  induction g with
  | nil =>
    by_cases h : i = id
    · subst h
      simp [addToGroup, groupLabels]
    · have h2 : ¬ id = i := fun hh => h hh.symm
      simp [addToGroup, groupLabels, h, h2]
  | cons hd tl ih =>
    by_cases h1 : hd.1 = id
    · subst h1
      by_cases h2 : hd.1 = i
      · subst h2
        simp [addToGroup, groupLabels]
      · have h3 : ¬ i = hd.1 := fun hh => h2 hh.symm
        simp [addToGroup, groupLabels, h2, h3]
    · by_cases h2 : hd.1 = i
      · subst h2
        have h3 : ¬ hd.1 = id := h1
        simp [addToGroup, groupLabels, h3]
      · simp [addToGroup, groupLabels, h1, h2, ih]

theorem groupLabels_groupMarks (marks : List (Nat × String)) (i : Nat) :
    groupLabels (groupMarks marks) i
      = (marks.filter (fun p => p.1 == i)).map (fun p => p.2) := by
  induction marks with
  | nil => rfl
  | cons hd tl ih =>
    simp only [groupMarks, groupLabels_addToGroup, List.filter_cons]
    by_cases h : i = hd.1
    · subst h
      simp [ih]
    · have hb : (hd.1 == i) = false := by
        rw [beq_eq_false_iff_ne]
        exact fun hh => h hh.symm
      simp [h, hb, ih]

theorem mem_fst_groupMarks (marks : List (Nat × String)) (i : Nat) :
    i ∈ (groupMarks marks).map (fun x => x.1) ↔ i ∈ marks.map (fun p => p.1) := by
  induction marks with
  | nil => simp [groupMarks]
  | cons hd tl ih =>
    simp only [groupMarks, mem_fst_addToGroup, ih, List.map_cons, List.mem_cons]

theorem nodup_fst_groupMarks (marks : List (Nat × String)) :
    ((groupMarks marks).map (fun x => x.1)).Nodup := by
  induction marks with
  | nil => simp [groupMarks]
  | cons hd tl ih => exact nodup_fst_addToGroup hd.1 hd.2 _ ih

theorem groupLabels_of_mem (G : List (Nat × List String))
    (hG : (G.map (fun x => x.1)).Nodup) (g : Nat × List String) (hg : g ∈ G) :
    groupLabels G g.1 = g.2 := by
  induction G with
  | nil => cases hg
  | cons hd tl ih =>
    simp only [List.map_cons, List.nodup_cons] at hG
    rcases List.mem_cons.mp hg with rfl | hmem
    · simp [groupLabels]
    · have hne : ¬ hd.1 = g.1 := by
        intro h
        exact hG.1 (h ▸ List.mem_map.mpr ⟨g, hmem, rfl⟩)
      simp only [groupLabels, hne, if_false]
      exact ih hG.2 hmem

theorem mem_labels_filter (m : List (Nat × String)) (id : Nat) (l : String) :
    l ∈ (m.filter (fun p => p.1 == id)).map (fun p => p.2) ↔ (id, l) ∈ m := by
  simp only [List.mem_map, List.mem_filter, beq_iff_eq]
  constructor
  · rintro ⟨⟨a, b⟩, ⟨hm, rfl⟩, rfl⟩
    exact hm
  · intro hm
    exact ⟨(id, l), ⟨hm, rfl⟩, rfl⟩

theorem nodup_labels_filter (m : List (Nat × String)) (id : Nat) (h : m.Nodup) :
    ((m.filter (fun p => p.1 == id)).map (fun p => p.2)).Nodup := by
  refine List.Nodup.map_on ?_ (h.filter _)
  rintro ⟨a, b⟩ ha ⟨a2, b2⟩ ha2 hsnd
  simp only [List.mem_filter, beq_iff_eq] at ha ha2
  simp only at hsnd
  rw [ha.2, ha2.2, hsnd]

theorem mem_collect_mark_infos (env : Env) (m : List (Nat × String)) (info : MarkInfo) :
    info ∈ collect_mark_infos env m
      ↔ ∃ g ∈ groupMarks m, info = mkInfo env g.1 (List.insertionSort (· ≤ ·) g.2) := by
  simp only [collect_mark_infos, List.mem_insertionSort, List.mem_map]
  constructor
  · rintro ⟨g, hg, rfl⟩
    exact ⟨g, hg, rfl⟩
  · rintro ⟨g, hg, rfl⟩
    exact ⟨g, hg, rfl⟩

theorem map_id_collect_perm (env : Env) (m : List (Nat × String)) :
    ((collect_mark_infos env m).map (fun i => i.id)).Perm
      ((groupMarks m).map (fun x => x.1)) := by
  have h1 : ((collect_mark_infos env m).map (fun i => i.id)).Perm
      (((groupMarks m).map
          (fun g => mkInfo env g.1 (List.insertionSort (· ≤ ·) g.2))).map (fun i => i.id)) :=
    (List.perm_insertionSort infoLe _).map _
  have h2 : ((groupMarks m).map
      (fun g => mkInfo env g.1 (List.insertionSort (· ≤ ·) g.2))).map (fun i => i.id)
      = (groupMarks m).map (fun x => x.1) := by
    rw [List.map_map]
    rfl
  rw [h2] at h1
  exact h1

theorem mem_map_id_collect (env : Env) (m : List (Nat × String)) (i : Nat) :
    i ∈ (collect_mark_infos env m).map (fun x => x.id) ↔ i ∈ m.map (fun p => p.1) := by
  rw [(map_id_collect_perm env m).mem_iff, mem_fst_groupMarks]

theorem nodup_map_id_collect (env : Env) (m : List (Nat × String)) :
    ((collect_mark_infos env m).map (fun x => x.id)).Nodup :=
  (map_id_collect_perm env m).nodup_iff.mpr (nodup_fst_groupMarks m)

theorem sorted_map_id_collect (env : Env) (m : List (Nat × String)) :
    ((collect_mark_infos env m).map (fun x => x.id)).Sorted (· < ·) := by
  have hs : (collect_mark_infos env m).Sorted infoLe :=
    List.sorted_insertionSort infoLe _
  have hle : ((collect_mark_infos env m).map (fun x => x.id)).Sorted (· ≤ ·) :=
    List.Pairwise.map _ (fun a b hab => hab) hs
  exact hle.lt_of_le (nodup_map_id_collect env m)

/-! Claim theorems (first batch). -/

/-- C1: every request is handled inside a recoverable-fault boundary: when
handling panics, the loop sends exactly one `Error` reply — whose text is
the panic message when the payload is a `String`, and the generic
description otherwise — and continues serving the remaining requests, so
no single request terminates the loop. -/
theorem c1_panic_boundary (env : Env) (st : InteractState) (msg : ToServer)
    (rest : List ToServer) (p : PanicPayload)
    (h : (handle_one env st msg).panicked = some p) :
    run_loop env st (msg :: rest)
      = ((run_loop env (handle_one env st msg).state rest).1,
         ToClient.Error (panic_text p) ::
           (run_loop env (handle_one env st msg).state rest).2)
    ∧ (∀ s, p = PanicPayload.string s → panic_text p = s)
    ∧ ((∀ s, p ≠ PanicPayload.string s) →
        panic_text p = "An error occurred of unknown type") := by
  refine ⟨?_, ?_, ?_⟩
  · simp [run_loop, h, handle_one_sent_of_panic env st msg p h]
  · rintro s rfl
    rfl
  · intro hs
    cases p with
    | str s => rfl
    | string s => exact absurd rfl (hs s)
    | other => rfl

/-- C2: for a path whose canonicalization succeeds, the live loader reads
an available buffer through exactly one worker round trip (returning the
bytes of the response, touching no disk), reads disk otherwise, and its
existence and absolute-path queries always delegate to the real
filesystem. -/
theorem c2_live_loader (env : Env) (loader : InteractiveFileLoader) (path canon : String)
    (h : env.canonicalize path = Except.ok canon) :
    (canon ∈ loader.buffers_available →
      loader.read_file env path
        = (Except.ok (env.worker_file_response canon), [FsEffect.needFile canon]))
    ∧ (canon ∉ loader.buffers_available →
      loader.read_file env path = (env.disk_read canon, [FsEffect.diskRead canon]))
    ∧ (∀ q, loader.file_exists env q = env.real_file_exists q)
    ∧ (∀ q, loader.abs_path env q = env.real_abs_path q) := by
  refine ⟨?_, ?_, fun q => rfl, fun q => rfl⟩ <;>
    intro hm <;>
    simp [InteractiveFileLoader.read_file, h, hm]

/-- C7: a `BufferText` message reaching the session loop is converted by
the boundary into an `Error` reply with the generic text, and the loop
keeps serving the remaining requests with unchanged state. -/
theorem c7_buffertext_error (env : Env) (st : InteractState) (f c : String)
    (rest : List ToServer) :
    run_loop env st (ToServer.BufferText f c :: rest)
      = ((run_loop env st rest).1,
         ToClient.Error "An error occurred of unknown type" :: (run_loop env st rest).2) := by
  simp [run_loop, handle_one, panic_text]

/-- C8: `SetBuffersAvailable` panics never, replies never, replaces the
buffer set with exactly the successfully canonicalized entries, and is
idempotent for a fixed filesystem. -/
theorem c8_set_buffers (env : Env) (st : InteractState) (files : List String) :
    (handle_one env st (ToServer.SetBuffersAvailable files)).panicked = none
    ∧ (handle_one env st (ToServer.SetBuffersAvailable files)).sent = []
    ∧ (∀ c, c ∈ (handle_one env st (ToServer.SetBuffersAvailable files)).state.buffers_available
        ↔ ∃ f ∈ files, env.canonicalize f = Except.ok c)
    ∧ (handle_one env (handle_one env st (ToServer.SetBuffersAvailable files)).state
        (ToServer.SetBuffersAvailable files)).state.buffers_available
      = (handle_one env st (ToServer.SetBuffersAvailable files)).state.buffers_available := by
  refine ⟨rfl, rfl, ?_, rfl⟩
  intro c
  simp only [handle_one, List.mem_dedup, List.mem_filterMap, except_toOption_eq_some]

/-- C3: a `RunCommand` whose command runs to completion emits one
`NewBufferText` per changed non-synthetic file when the AST changed,
replaces the session marks and emits one fresh `MarkList` when the mark
set changed, and sends nothing when neither changed. -/
theorem c3_run_command (env : Env) (st : InteractState) (name : String)
    (args : List String) (cmd : Command) (res : CmdResult)
    (hg : env.get_command name args = Except.ok cmd)
    (hr : cmd.run st.current_marks = Except.ok res) :
    (handle_one env st (ToServer.RunCommand name args)).panicked = none
    ∧ (handle_one env st (ToServer.RunCommand name args)).sent
        = (if res.krate_changed then
             (res.rewrites.filter (fun fm => !(fm.1.startsWith "<"))).map
               (fun fm => ToClient.NewBufferText fm.1 fm.2)
           else [])
          ++ (if res.marks_changed then
                [ToClient.MarkList (collect_mark_infos env res.marks)]
              else [])
    ∧ (handle_one env st (ToServer.RunCommand name args)).state.current_marks
        = (if res.marks_changed then res.marks else st.current_marks) := by
  refine ⟨?_, ?_, ?_⟩ <;> simp [handle_one, hg, hr]

/-- C4: an `AddMark` that finds no node of the requested kind panics, the
boundary turns the panic into one `Error` reply carrying the panic
message, the state is untouched, and a following `GetMarkList` reports
the pre-existing marks. -/
theorem c4_addmark_atomic (env : Env) (st : InteractState) (file : String)
    (line col : Nat) (kind label : String) (k : String)
    (hk : env.node_kind_from_str kind = some k)
    (hp : env.pick_node_at_loc k file line col = none) :
    run_loop env st [ToServer.AddMark file line col kind label, ToServer.GetMarkList]
      = (st, [ToClient.Error (no_node_msg (env.kind_debug k) file line col),
              ToClient.MarkList (collect_mark_infos env st.current_marks)]) := by
  simp [run_loop, handle_one, hk, hp, panic_text]

/-- C5: an `AddMark` that finds a node inserts the pair of the node id
and the label into the mark set and replies with the `MarkInfo` of that node
whose label list is exactly the one new label. -/
theorem c5_addmark_success (env : Env) (st : InteractState) (file : String)
    (line col : Nat) (kind label : String) (k : String) (pr : Nat × SpanInfo)
    (hk : env.node_kind_from_str kind = some k)
    (hp : env.pick_node_at_loc k file line col = some pr) :
    handle_one env st (ToServer.AddMark file line col kind label)
      = ⟨{ st with current_marks := insertMark (pr.1, label) st.current_marks },
         [ToClient.Mark
            { id := pr.1, file := pr.2.file, start_line := pr.2.start_line,
              start_col := pr.2.start_col, end_line := pr.2.end_line,
              end_col := pr.2.end_col, labels := [label] }], none⟩ := by
  simp [handle_one, hk, hp]

/-- C9: `RemoveMark` deletes every mark of the id, keeps every other mark,
sends no reply and panics never; afterwards `GetMarkInfo` on the id
replies with an empty label list and the id is absent from the
`GetMarkList` reply. -/
theorem c9_remove_mark (env : Env) (st : InteractState) (id : Nat) :
    (handle_one env st (ToServer.RemoveMark id)).sent = []
    ∧ (handle_one env st (ToServer.RemoveMark id)).panicked = none
    ∧ (∀ p : Nat × String,
        p ∈ (handle_one env st (ToServer.RemoveMark id)).state.current_marks
          ↔ p ∈ st.current_marks ∧ p.1 ≠ id)
    ∧ (∀ l, (id, l) ∉ (handle_one env st (ToServer.RemoveMark id)).state.current_marks)
    ∧ (handle_one env (handle_one env st (ToServer.RemoveMark id)).state
        (ToServer.GetMarkInfo id)).sent = [ToClient.Mark (mkInfo env id [])]
    ∧ (handle_one env (handle_one env st (ToServer.RemoveMark id)).state
        ToServer.GetMarkList).sent
        = [ToClient.MarkList (collect_mark_infos env
            ((handle_one env st (ToServer.RemoveMark id)).state.current_marks))]
    ∧ id ∉ (collect_mark_infos env
        ((handle_one env st (ToServer.RemoveMark id)).state.current_marks)).map
          (fun x => x.id) := by
  have hmem : ∀ p : Nat × String,
      p ∈ (handle_one env st (ToServer.RemoveMark id)).state.current_marks
        ↔ p ∈ st.current_marks ∧ p.1 ≠ id := by
    intro p
    simp [handle_one, List.mem_filter]
  have hfilter : ((st.current_marks.filter (fun p => p.1 != id)).filter
      (fun p => p.1 == id)) = [] := by
    rw [List.filter_filter]
    refine List.filter_eq_nil_iff.mpr ?_
    rintro ⟨a, b⟩ hmem2
    simp only [bne, Bool.and_eq_true, beq_iff_eq, Bool.not_eq_true', beq_eq_false_iff_ne,
      ne_eq, Bool.and_eq_false_iff]
    by_cases h : a = id <;> simp [h]
  refine ⟨rfl, rfl, hmem, ?_, ?_, rfl, ?_⟩
  · intro l hl
    exact ((hmem (id, l)).mp hl).2 rfl
  · simp only [handle_one, hfilter, List.map_nil]
    rfl
  · rw [mem_map_id_collect]
    rintro hid
    rcases List.mem_map.mp hid with ⟨p, hp, rfl⟩
    exact ((hmem p).mp hp).2 rfl

theorem handle_add_resolved (env : Env) (st : InteractState) (r : AddReq) (p : Nat × String)
    (h : resolve_add env r = some p) :
    (handle_one env st r.toMsg).state
      = { st with current_marks := insertMark p st.current_marks } := by
  unfold resolve_add at h
  cases hk : env.node_kind_from_str r.kind with
  | none => simp [hk] at h
  | some k =>
    simp only [hk] at h
    cases hp : env.pick_node_at_loc k r.file r.line r.col with
    | none => simp [hp] at h
    | some pr =>
      simp only [hp, Option.map_some'] at h
      cases h
      simp [AddReq.toMsg, handle_one, hk, hp]

theorem run_adds (env : Env) (reqs : List AddReq) (st : InteractState)
    (h : ∀ r ∈ reqs, (resolve_add env r).isSome) :
    (run_loop env st (reqs.map AddReq.toMsg)).1.current_marks
      = (reqs.filterMap (resolve_add env)).foldl (fun m p => insertMark p m)
          st.current_marks := by
  revert h
  induction reqs generalizing st with
  | nil =>
    intro h
    simp [run_loop]
  | cons r rs ih =>
    intro h
    obtain ⟨p, hp⟩ := Option.isSome_iff_exists.mp (h r (List.mem_cons_self r rs))
    have hrest : ∀ q ∈ rs, (resolve_add env q).isSome :=
      fun q hq => h q (List.mem_cons_of_mem r hq)
    have hfm : (r :: rs).filterMap (resolve_add env)
        = p :: rs.filterMap (resolve_add env) := by
      simp [List.filterMap_cons, hp]
    simp only [List.map_cons, run_loop, hfm, List.foldl_cons]
    rw [handle_add_resolved env st r p hp, ih _ hrest]

/-- C6: after any sequence of resolving `AddMark` requests starting from a
fresh session, `GetMarkInfo` on an id replies with exactly the union of
the labels attached to that id, lexicographically sorted with duplicates
collapsed, and `GetMarkList` replies with one `MarkInfo` per distinct
marked id in strictly increasing id order, each label list sorted. -/
theorem c6_mark_query_semantics (env : Env) (rargs : List String) (reqs : List AddReq)
    (h : ∀ r ∈ reqs, (resolve_add env r).isSome) (id : Nat) :
    (∃ info : MarkInfo,
        (handle_one env (run_loop env (InteractState.new rargs) (reqs.map AddReq.toMsg)).1
            (ToServer.GetMarkInfo id)).sent = [ToClient.Mark info]
        ∧ info.labels.Sorted (· ≤ ·) ∧ info.labels.Nodup
        ∧ (∀ l, l ∈ info.labels ↔ (id, l) ∈ reqs.filterMap (resolve_add env)))
    ∧ (∃ infos : List MarkInfo,
        (handle_one env (run_loop env (InteractState.new rargs) (reqs.map AddReq.toMsg)).1
            ToServer.GetMarkList).sent = [ToClient.MarkList infos]
        ∧ (infos.map (fun x => x.id)).Sorted (· < ·)
        ∧ (∀ i, i ∈ infos.map (fun x => x.id)
            ↔ ∃ l, (i, l) ∈ reqs.filterMap (resolve_add env))
        ∧ (∀ info ∈ infos, info.labels.Sorted (· ≤ ·) ∧ info.labels.Nodup
            ∧ (∀ l, l ∈ info.labels ↔ (info.id, l) ∈ reqs.filterMap (resolve_add env)))) := by
  have hmarks := run_adds env reqs (InteractState.new rargs) h
  rw [show (InteractState.new rargs).current_marks = [] from rfl] at hmarks
  set st1 := (run_loop env (InteractState.new rargs) (reqs.map AddReq.toMsg)).1 with hst1
  set pairs := reqs.filterMap (resolve_add env) with hpairs
  have hm_mem : ∀ q : Nat × String, q ∈ st1.current_marks ↔ q ∈ pairs := by
    intro q
    rw [hmarks]
    simpa using mem_foldl_insertMark pairs [] q
  have hm_nodup : st1.current_marks.Nodup := by
    rw [hmarks]
    exact nodup_foldl_insertMark pairs [] List.nodup_nil
  constructor
  · have hsent : (handle_one env st1 (ToServer.GetMarkInfo id)).sent
        = [ToClient.Mark (mkInfo env id (List.insertionSort (· ≤ ·)
            ((st1.current_marks.filter (fun p => p.1 == id)).map (fun p => p.2))))] := rfl
    refine ⟨_, hsent, ?_, ?_, ?_⟩
    · exact List.sorted_insertionSort (· ≤ ·) _
    · exact (List.perm_insertionSort (· ≤ ·) _).nodup_iff.mpr
        (nodup_labels_filter st1.current_marks id hm_nodup)
    · intro l
      rw [show (mkInfo env id (List.insertionSort (· ≤ ·)
          ((st1.current_marks.filter (fun p => p.1 == id)).map (fun p => p.2)))).labels
        = List.insertionSort (· ≤ ·)
            ((st1.current_marks.filter (fun p => p.1 == id)).map (fun p => p.2)) from rfl]
      rw [List.mem_insertionSort, mem_labels_filter, hm_mem]
  · have hsent2 : (handle_one env st1 ToServer.GetMarkList).sent
        = [ToClient.MarkList (collect_mark_infos env st1.current_marks)] := rfl
    refine ⟨collect_mark_infos env st1.current_marks, hsent2, ?_, ?_, ?_⟩
    · exact sorted_map_id_collect env st1.current_marks
    · intro i
      rw [mem_map_id_collect]
      constructor
      · intro hi
        rcases List.mem_map.mp hi with ⟨⟨a, b⟩, hab, rfl⟩
        exact ⟨b, (hm_mem (a, b)).mp hab⟩
      · rintro ⟨l, hl⟩
        exact List.mem_map.mpr ⟨(i, l), (hm_mem (i, l)).mpr hl, rfl⟩
    · intro info hinfo
      rcases (mem_collect_mark_infos env st1.current_marks info).mp hinfo with ⟨g, hg, rfl⟩
      have hlabels : (mkInfo env g.1 (List.insertionSort (· ≤ ·) g.2)).labels
          = List.insertionSort (· ≤ ·) g.2 := rfl
      have hid : (mkInfo env g.1 (List.insertionSort (· ≤ ·) g.2)).id = g.1 := rfl
      have hg2 : g.2 = (st1.current_marks.filter (fun p => p.1 == g.1)).map (fun p => p.2) := by
        rw [← groupLabels_of_mem (groupMarks st1.current_marks)
          (nodup_fst_groupMarks st1.current_marks) g hg]
        exact groupLabels_groupMarks st1.current_marks g.1
      refine ⟨?_, ?_, ?_⟩
      · rw [hlabels]
        exact List.sorted_insertionSort (· ≤ ·) _
      · rw [hlabels, hg2]
        exact (List.perm_insertionSort (· ≤ ·) _).nodup_iff.mpr
          (nodup_labels_filter st1.current_marks g.1 hm_nodup)
      · intro l
        rw [hlabels, hid, hg2, List.mem_insertionSort, mem_labels_filter, hm_mem]

/-- C10: when canonicalization fails, `read_file` returns that error with
no worker request and no disk read, whatever the buffer set holds; in the
disk branch the bytes come from the canonical path, not the requested
one. -/
theorem c10_read_file_canonical (env : Env) (loader : InteractiveFileLoader) (path : String) :
    (∀ e, env.canonicalize path = Except.error e →
      loader.read_file env path = (Except.error e, []))
    ∧ (∀ canon, env.canonicalize path = Except.ok canon →
        canon ∉ loader.buffers_available →
        loader.read_file env path = (env.disk_read canon, [FsEffect.diskRead canon])) := by
  constructor
  · intro e he
    simp [InteractiveFileLoader.read_file, he]
  · intro canon hc hm
    simp [InteractiveFileLoader.read_file, hc, hm]

/-! Witnesses: each theorem exercised at concrete inputs. -/

/-- Witness for C1: an `AddMark` with an unknown node kind panics and the
loop turns it into one `Error` reply before serving the next request. -/
theorem c1_panic_boundary_witness :
    run_loop env0 (InteractState.new ["r"])
        [ToServer.AddMark "a.rs" 1 1 "Bogus" "x", ToServer.GetMarkList]
      = ((run_loop env0 (handle_one env0 (InteractState.new ["r"])
            (ToServer.AddMark "a.rs" 1 1 "Bogus" "x")).state [ToServer.GetMarkList]).1,
         ToClient.Error (panic_text (PanicPayload.str unwrapNoneMsg)) ::
           (run_loop env0 (handle_one env0 (InteractState.new ["r"])
             (ToServer.AddMark "a.rs" 1 1 "Bogus" "x")).state [ToServer.GetMarkList]).2) :=
  (c1_panic_boundary env0 (InteractState.new ["r"]) (ToServer.AddMark "a.rs" 1 1 "Bogus" "x")
    [ToServer.GetMarkList] (PanicPayload.str unwrapNoneMsg) (by decide)).1

/-- Witness for C2: reading the available buffer "buf.rs" goes through
the worker and returns the live content. -/
theorem c2_live_loader_witness :
    loader0.read_file env0 "buf.rs"
      = (Except.ok (env0.worker_file_response "buf.rs"), [FsEffect.needFile "buf.rs"]) :=
  (c2_live_loader env0 loader0 "buf.rs" "buf.rs" rfl).1 (by decide)

/-- Witness for C3: the command `rename_item` changes AST and marks and
the reply list is one `NewBufferText` for the real file plus one
`MarkList`. -/
theorem c3_run_command_witness :
    (handle_one env0 (InteractState.new ["r"]) (ToServer.RunCommand "rename_item" [])).sent
      = (if res0.krate_changed then
           (res0.rewrites.filter (fun fm => !(fm.1.startsWith "<"))).map
             (fun fm => ToClient.NewBufferText fm.1 fm.2)
         else [])
        ++ (if res0.marks_changed then
              [ToClient.MarkList (collect_mark_infos env0 res0.marks)]
            else []) :=
  (c3_run_command env0 (InteractState.new ["r"]) "rename_item" [] cmd0 res0 rfl rfl).2.1

/-- Witness for C4: an `AddMark` at a location with no node yields one
`Error` and the following `GetMarkList` sees the unchanged (empty)
mark set. -/
theorem c4_addmark_atomic_witness :
    run_loop env0 (InteractState.new ["r"])
        [ToServer.AddMark "a.rs" 1 1 "Item" "x", ToServer.GetMarkList]
      = (InteractState.new ["r"],
         [ToClient.Error (no_node_msg (env0.kind_debug "Item") "a.rs" 1 1),
          ToClient.MarkList (collect_mark_infos env0 (InteractState.new ["r"]).current_marks)]) :=
  c4_addmark_atomic env0 (InteractState.new ["r"]) "a.rs" 1 1 "Item" "x" "Item"
    (by decide) (by decide)

/-- Witness for C5: an `AddMark` that finds node 7 inserts the mark and
replies with a `MarkInfo` whose only label is the new one. -/
theorem c5_addmark_success_witness :
    handle_one env0 (InteractState.new ["r"]) (ToServer.AddMark "a.rs" 3 5 "Item" "x")
      = ⟨{ InteractState.new ["r"] with
            current_marks := insertMark (7, "x") (InteractState.new ["r"]).current_marks },
         [ToClient.Mark
            { id := 7, file := span0.file, start_line := span0.start_line,
              start_col := span0.start_col, end_line := span0.end_line,
              end_col := span0.end_col, labels := ["x"] }], none⟩ :=
  c5_addmark_success env0 (InteractState.new ["r"]) "a.rs" 3 5 "Item" "x" "Item" (7, span0)
    (by decide) (by decide)

/-- Witness for C6: after the one resolving `AddMark` of `reqs0`, the
`GetMarkInfo` reply for id 7 is a sorted duplicate-free label list
matching the attached labels. -/
theorem c6_mark_query_semantics_witness :
    ∃ info : MarkInfo,
      (handle_one env0 (run_loop env0 (InteractState.new ["r"]) (reqs0.map AddReq.toMsg)).1
          (ToServer.GetMarkInfo 7)).sent = [ToClient.Mark info]
      ∧ info.labels.Sorted (· ≤ ·) ∧ info.labels.Nodup
      ∧ (∀ l, l ∈ info.labels ↔ (7, l) ∈ reqs0.filterMap (resolve_add env0)) :=
  (c6_mark_query_semantics env0 ["r"] reqs0 (by decide) 7).1

/-- Witness for C7: a stray `BufferText` becomes one generic `Error` and
the loop goes on. -/
theorem c7_buffertext_error_witness :
    run_loop env0 (InteractState.new ["r"]) [ToServer.BufferText "f" "c"]
      = ((run_loop env0 (InteractState.new ["r"]) []).1,
         ToClient.Error "An error occurred of unknown type" ::
           (run_loop env0 (InteractState.new ["r"]) []).2) :=
  c7_buffertext_error env0 (InteractState.new ["r"]) "f" "c" []

/-- Witness for C8: setting buffers from a list with one bad path drops
it silently and repeating the call changes nothing. -/
theorem c8_set_buffers_witness :
    (handle_one env0 (InteractState.new ["r"])
        (ToServer.SetBuffersAvailable ["a.rs", "bad"])).panicked = none
    ∧ (handle_one env0 (handle_one env0 (InteractState.new ["r"])
          (ToServer.SetBuffersAvailable ["a.rs", "bad"])).state
        (ToServer.SetBuffersAvailable ["a.rs", "bad"])).state.buffers_available
      = (handle_one env0 (InteractState.new ["r"])
          (ToServer.SetBuffersAvailable ["a.rs", "bad"])).state.buffers_available :=
  ⟨(c8_set_buffers env0 (InteractState.new ["r"]) ["a.rs", "bad"]).1,
   (c8_set_buffers env0 (InteractState.new ["r"]) ["a.rs", "bad"]).2.2.2⟩

/-- Witness for C9: removing id 7 sends nothing and leaves no mark with
id 7 behind. -/
theorem c9_remove_mark_witness :
    (handle_one env0 (InteractState.new ["r"]) (ToServer.RemoveMark 7)).sent = []
    ∧ ∀ l, (7, l) ∉ (handle_one env0 (InteractState.new ["r"])
        (ToServer.RemoveMark 7)).state.current_marks :=
  ⟨(c9_remove_mark env0 (InteractState.new ["r"]) 7).1,
   (c9_remove_mark env0 (InteractState.new ["r"]) 7).2.2.2.1⟩

/-- Witness for C10: reading the uncanonicalizable path "bad" returns the
canonicalization error with no effects, and a disk fallback reads the
canonical path. -/
theorem c10_read_file_canonical_witness :
    loader0.read_file env0 "bad" = (Except.error "no such file", [])
    ∧ loaderE.read_file env0 "b.rs" = (env0.disk_read "b.rs", [FsEffect.diskRead "b.rs"]) :=
  ⟨(c10_read_file_canonical env0 loader0 "bad").1 "no such file" rfl,
   (c10_read_file_canonical env0 loaderE "b.rs").2 "b.rs" rfl (by decide)⟩

end Interact
